import Mathlib

/-!
Verification of the ag-account-cli terminal dashboard (src/main.rs).

The Rust program polls one HTTP endpoint, decodes an optionally
double-encoded JSON payload into an `ApiResponse` snapshot, classifies each
account (invalid / disabled / limited / ok), aggregates summary counts, and
renders two tables.  This file is a shallow embedding of that core:

* `HashMap<String, T>` values are modelled as association lists
  `List (String × T)` with unique-key insertion (`insertA`) and
  first-match lookup (`lookupA`); iteration order of a `HashMap` is
  arbitrary, so order-sensitivity questions become permutation questions.
* Rust `f64` fields (`remaining_fraction`) are modelled as `ℚ`; every
  comparison the program performs on them (`<= 0.0`, `< 0.3`) is exact at
  the inputs used in the theorems below.
* `u64` values are modelled as `Nat`, casts `as u32` as saturating
  truncation, and `i64` division/remainder as `Int.tdiv`/`Int.tmod`
  (both truncate toward zero, as in Rust).
* serde_json (an external dependency) is modelled from the spec's inbound
  data contract: a total fuel-indexed JSON text parser `parseJson` plus
  serde-derive-style field decoders (unknown fields ignored, duplicate
  known fields rejected, `Option` fields defaulting to `none` when absent).
-/


/-- Per-model rate-limit state (struct `ModelRateLimit` in main.rs). -/
structure ModelRateLimit where
  is_rate_limited : Bool
deriving Repr, DecidableEq

/-- Per-model quota (struct `ModelQuota` in main.rs); `remaining_fraction`
is an `f64` in the source, modelled as `ℚ`. -/
structure ModelQuota where
  remaining_fraction : ℚ
  reset_time : Option String
deriving Repr, DecidableEq

/-- One account (struct `Account` in main.rs).  The two `HashMap` fields are
modelled as association lists. -/
structure Account where
  email : String
  enabled : Option Bool := none
  limits : Option (List (String × ModelQuota)) := none
  model_rate_limits : Option (List (String × ModelRateLimit)) := none
  is_invalid : Option Bool := none
  last_used : Option Nat := none
deriving Repr, DecidableEq

/-- The decoded snapshot (struct `ApiResponse` in main.rs). -/
structure ApiResponse where
  timestamp : Option String := none
  accounts : List Account := []
  models : List String := []
deriving Repr, DecidableEq

/-- ANSI color constant from main.rs. -/
def RED : String := "\x1b[31m"

/-- ANSI color constant from main.rs. -/
def GREEN : String := "\x1b[32m"

/-- ANSI color constant from main.rs. -/
def YELLOW : String := "\x1b[33m"

/-- ANSI color constant from main.rs. -/
def DIM : String := "\x1b[2m"

/-- First-match lookup in an association list (models `HashMap::get`). -/
def lookupA {α : Type} : List (String × α) → String → Option α
  | [], _ => none
  | (k, v) :: rest, key => if k = key then some v else lookupA rest key

/-- Key-replacing insertion into an association list (models
`HashMap::insert`: replaces the value when the key is present). -/
def insertA {α : Type} (l : List (String × α)) (k : String) (v : α) :
    List (String × α) :=
  if (l.map Prod.fst).contains k then
    l.map (fun p => if p.1 = k then (k, v) else p)
  else
    l ++ [(k, v)]

/-- `get_account_status` from main.rs: strict priority
invalid > disabled > limited > ok, returning (status, color). -/
def get_account_status (account : Account) : String × String :=
  if account.is_invalid.getD false then
    ("invalid", RED)
  else if !(account.enabled.getD true) then
    ("disabled", DIM)
  else
    match account.model_rate_limits with
    | some rate_limits =>
        let limited := (rate_limits.filter (fun r => r.2.is_rate_limited)).length
        if limited > 0 then ("limited", YELLOW) else ("ok", GREEN)
    | none => ("ok", GREEN)

/-- Status kind of an account: the first component of `get_account_status`. -/
def statusKind (account : Account) : String := (get_account_status account).1

/-- The test `a.model_rate_limits.as_ref().map(|r| r.values().any(|l| l.is_rate_limited)).unwrap_or(false)`
from `count_stats` in main.rs. -/
def anyRateLimited (a : Account) : Bool :=
  (a.model_rate_limits.map (fun r => r.any (fun l => l.2.is_rate_limited))).getD false

/-- `count_stats` from main.rs, returning (available, rate_limited, invalid).
The Rust loop increments independent counters while walking the slice; the
structural recursion below computes the same three counts. -/
def count_stats : List Account → Nat × Nat × Nat
  | [] => (0, 0, 0)
  | a :: rest =>
    let c := count_stats rest
    if a.is_invalid.getD false then
      (c.1, c.2.1, c.2.2 + 1)
    else if anyRateLimited a then
      (c.1, c.2.1 + 1, c.2.2)
    else if a.enabled.getD true then
      (c.1 + 1, c.2.1, c.2.2)
    else
      c

/-- The status cell of the account-summary table (main.rs lines 196-205):
for a `limited` account the label is "(limited/total) limited" computed from
the rate-limit mapping. -/
def status_display (account : Account) : String :=
  let st := statusKind account
  if st = "limited" then
    match account.model_rate_limits with
    | some rl =>
        let limited := (rl.filter (fun r => r.2.is_rate_limited)).length
        "(" ++ toString limited ++ "/" ++ toString rl.length ++ ") limited"
    | none => st
  else st

/-- Lexicographic comparison of char lists by code point.  Rust's `Ord` for
`String` compares UTF-8 bytes; UTF-8 byte order agrees with code-point
order, so this models it exactly. -/
def charListLe : List Char → List Char → Bool
  | [], _ => true
  | _ :: _, [] => false
  | a :: as2, b :: bs =>
    if a.toNat < b.toNat then true
    else if b.toNat < a.toNat then false
    else charListLe as2 bs

/-- String order used by Rust's `Iterator::min` over `&String` values. -/
def strLe (s t : String) : Bool := charListLe s.data t.data

/-- Minimum of a list of strings under `strLe` (models `Iterator::min`). -/
def strMin? : List String → Option String
  | [] => none
  | s :: rest =>
    match strMin? rest with
    | none => some s
    | some t => some (if strLe s t then s else t)

/-- The reset-time strings of an account:
`limits.values().filter_map(|q| q.reset_time.as_ref())` in main.rs. -/
def account_reset_times (account : Account) : List String :=
  match account.limits with
  | some limits => limits.filterMap (fun q => q.2.reset_time)
  | none => []

/-- The reset time chosen for the "Quota Reset" column (main.rs lines
211-222): the `min()` over the account's reset-time *strings*.  The chosen
string is then parsed and reformatted for display. -/
def account_reset_pick (account : Account) : Option String :=
  match account.limits with
  | none => none
  | some limits => strMin? (limits.filterMap (fun q => q.2.reset_time))

/-- Classification of one quota-grid cell. -/
inductive CellKind where
  | exhausted (hasWait : Bool)
  | low
  | healthy
  | na
deriving Repr, DecidableEq

/-- The per-model rate-limit flag lookup used in the quota grid
(main.rs lines 249-252). -/
def model_is_limited (account : Account) (model : String) : Bool :=
  ((account.model_rate_limits.bind (fun r => lookupA r model)).map
    (fun l => l.is_rate_limited)).getD false

/-- The percentage computation `(quota.remaining_fraction * 100.0) as u32`
(main.rs line 248): truncation toward zero, saturating at the `u32` range
(negative values clamp to 0 via `Int.toNat`). -/
def pct_of_fraction (q : ℚ) : Nat :=
  min (⌊q * 100⌋).toNat (2 ^ 32 - 1)

/-- The quota-grid cell classification (main.rs lines 246-269). -/
def cell_kind (account : Account) (model : String) : CellKind :=
  match account.limits with
  | none => CellKind.na
  | some limits =>
    match lookupA limits model with
    | none => CellKind.na
    | some quota =>
      if quota.remaining_fraction ≤ 0 ∨ model_is_limited account model = true then
        CellKind.exhausted quota.reset_time.isSome
      else if quota.remaining_fraction < 3 / 10 then
        CellKind.low
      else
        CellKind.healthy

/-- The percentage rendered in a quota-grid cell, when the account has a
quota entry for the model (main.rs line 248). -/
def cell_pct (account : Account) (model : String) : Option Nat :=
  match account.limits with
  | none => none
  | some limits =>
    (lookupA limits model).map (fun quota => pct_of_fraction quota.remaining_fraction)

/-- The quota grid: one row per *server-declared* model (main.rs line 242
iterates `data.models`), one cell per account. -/
def quota_grid (data : ApiResponse) : List (String × List CellKind) :=
  data.models.map (fun model => (model, data.accounts.map (fun a => cell_kind a model)))

/-- The countdown rendering of `format_reset_time` (main.rs lines 92-104)
as a function of the signed whole-second duration until the reset instant.
`chrono::Duration::num_hours`/`num_minutes`/`num_seconds` truncate toward
zero, as do Rust's `/` and `%` on `i64`. -/
def countdown_string (durSecs : Int) : String :=
  if durSecs ≤ 0 then "now"
  else
    let h := durSecs.tdiv 3600
    let m := (durSecs.tdiv 60).tmod 60
    let s := durSecs.tmod 60
    if h > 0 then toString h ++ "h" ++ toString m ++ "m" ++ toString s ++ "s"
    else if m > 0 then toString m ++ "m" ++ toString s ++ "s"
    else toString s ++ "s"

/-- Modelled from the spec: reset timestamps are RFC3339 strings parsed by
`chrono::DateTime::parse_from_rfc3339` (an external dependency).  This
function parses the shape `YYYY-MM-DDTHH:MM:SS[.fff](Z|+HH:MM|-HH:MM)`
(fractional seconds accepted and ignored) to whole seconds since the Unix
epoch, validating calendar ranges; other RFC3339 variants are rejected. -/
def digitVal (c : Char) : Option Nat :=
  if c.isDigit then some (c.toNat - 48) else none

/-- Read exactly two decimal digits. -/
def read2 : List Char → Option (Nat × List Char)
  | a :: b :: rest =>
    match digitVal a, digitVal b with
    | some x, some y => some (x * 10 + y, rest)
    | _, _ => none
  | _ => none

/-- Read exactly four decimal digits. -/
def read4 : List Char → Option (Nat × List Char)
  | a :: b :: c :: d :: rest =>
    match digitVal a, digitVal b, digitVal c, digitVal d with
    | some w, some x, some y, some z => some (((w * 10 + x) * 10 + y) * 10 + z, rest)
    | _, _, _, _ => none
  | _ => none

/-- Expect one specific character. -/
def expectChar (c : Char) : List Char → Option (List Char)
  | x :: rest => if x = c then some rest else none
  | [] => none

/-- Gregorian leap-year test. -/
def isLeapYear (y : Nat) : Bool :=
  (y % 4 = 0 && y % 100 ≠ 0) || y % 400 = 0

/-- Days in a month of the proleptic Gregorian calendar. -/
def daysInMonth (y m : Nat) : Nat :=
  if m = 2 then (if isLeapYear y then 29 else 28)
  else if m = 4 ∨ m = 6 ∨ m = 9 ∨ m = 11 then 30
  else 31

/-- Days from the Unix epoch to the civil date y-m-d (standard
days-from-civil computation; exact for the years appearing here). -/
def daysFromCivil (y m d : Int) : Int :=
  let y2 := if m ≤ 2 then y - 1 else y
  let era := (if 0 ≤ y2 then y2 else y2 - 399).tdiv 400
  let yoe := y2 - era * 400
  let mp := (m + 9).tmod 12
  let doy := (153 * mp + 2).tdiv 5 + d - 1
  let doe := yoe * 365 + yoe.tdiv 4 - yoe.tdiv 100 + doy
  era * 146097 + doe - 719468

/-- Skip an optional fractional-seconds part ".ddd"; a bare "." with no
digit is left in place (and will fail the offset parse). -/
def skipFrac : List Char → List Char
  | '.' :: c :: rest =>
    if c.isDigit then (c :: rest).dropWhile Char.isDigit else '.' :: c :: rest
  | cs => cs

/-- Parse the trailing UTC-offset designator, requiring it to end the
string: "Z" or "+HH:MM" or "-HH:MM", yielding the offset in seconds. -/
def parseOffsetSecs : List Char → Option Int
  | ['Z'] => some 0
  | c :: rest =>
    if c = '+' ∨ c = '-' then
      match read2 rest with
      | none => none
      | some (oh, rest1) =>
        match expectChar ':' rest1 with
        | none => none
        | some rest2 =>
          match read2 rest2 with
          | none => none
          | some (om, rest3) =>
            if rest3 = [] ∧ oh ≤ 23 ∧ om ≤ 59 then
              some (if c = '-' then -((oh : Int) * 3600 + om * 60)
                    else (oh : Int) * 3600 + om * 60)
            else none
    else none
  | [] => none

/-- Modelled from the spec: RFC3339 parse to whole seconds since epoch. -/
def rfc3339ToEpoch (s : String) : Option Int := do
  let cs := s.data
  let (y, cs) ← read4 cs
  let cs ← expectChar '-' cs
  let (mo, cs) ← read2 cs
  let cs ← expectChar '-' cs
  let (d, cs) ← read2 cs
  let cs ← expectChar 'T' cs
  let (h, cs) ← read2 cs
  let cs ← expectChar ':' cs
  let (mi, cs) ← read2 cs
  let cs ← expectChar ':' cs
  let (sec, cs) ← read2 cs
  let cs := skipFrac cs
  let off ← parseOffsetSecs cs
  if 1 ≤ mo ∧ mo ≤ 12 ∧ 1 ≤ d ∧ d ≤ daysInMonth y mo ∧ h ≤ 23 ∧ mi ≤ 59 ∧ sec ≤ 59 then
    some (daysFromCivil y mo d * 86400 + ((h * 3600 + mi * 60 + sec : Nat) : Int) - off)
  else
    none

/-- `format_reset_time` from main.rs (lines 89-108), with the external
clock `Utc::now()` passed in as whole seconds since epoch: a string that
parses as RFC3339 renders as a countdown, anything else is echoed back. -/
def format_reset_time (reset_time : String) (nowEpoch : Int) : String :=
  match rfc3339ToEpoch reset_time with
  | some t => countdown_string (t - nowEpoch)
  | none => reset_time

/-- Modelled from the spec: the JSON value space of serde_json.  Numbers
carry the parsed rational value plus a flag recording whether the literal
was syntactically an integer (no fraction, no exponent), which is what
serde_json's `u64` deserialization requires. -/
inductive Json where
  | null
  | bool (b : Bool)
  | num (isInt : Bool) (q : ℚ)
  | str (s : String)
  | arr (elems : List Json)
  | obj (fields : List (String × Json))

/-- Skip JSON whitespace. -/
def skipWs : List Char → List Char
  | c :: rest =>
    if c = ' ' ∨ c = '\t' ∨ c = '\n' ∨ c = '\r' then skipWs rest else c :: rest
  | [] => []

/-- Hex digit value. -/
def hexVal (c : Char) : Option Nat :=
  if c.isDigit then some (c.toNat - 48)
  else if 'a' ≤ c ∧ c ≤ 'f' then some (c.toNat - 87)
  else if 'A' ≤ c ∧ c ≤ 'F' then some (c.toNat - 55)
  else none

/-- Parse the body of a JSON string literal (after the opening quote),
handling escapes; raw control characters are rejected, and `\uXXXX`
escapes are accepted for non-surrogate code points. -/
def pStringChars : Nat → List Char → Option (List Char × List Char)
  | 0, _ => none
  | fuel + 1, cs =>
    match cs with
    | '"' :: rest => some ([], rest)
    | '\\' :: e :: rest =>
      if e = '"' ∨ e = '\\' ∨ e = '/' then
        (pStringChars fuel rest).map (fun p => (e :: p.1, p.2))
      else if e = 'b' then (pStringChars fuel rest).map (fun p => ('\x08' :: p.1, p.2))
      else if e = 'f' then (pStringChars fuel rest).map (fun p => ('\x0c' :: p.1, p.2))
      else if e = 'n' then (pStringChars fuel rest).map (fun p => ('\n' :: p.1, p.2))
      else if e = 'r' then (pStringChars fuel rest).map (fun p => ('\r' :: p.1, p.2))
      else if e = 't' then (pStringChars fuel rest).map (fun p => ('\t' :: p.1, p.2))
      else if e = 'u' then
        match rest with
        | a :: b :: c :: d :: rest2 =>
          match hexVal a, hexVal b, hexVal c, hexVal d with
          | some w, some x, some y, some z =>
            let code := ((w * 16 + x) * 16 + y) * 16 + z
            if 0xD800 ≤ code ∧ code ≤ 0xDFFF then none
            else (pStringChars fuel rest2).map (fun p => (Char.ofNat code :: p.1, p.2))
          | _, _, _, _ => none
        | _ => none
      else none
    | c :: rest =>
      if c.toNat < 32 then none
      else (pStringChars fuel rest).map (fun p => (c :: p.1, p.2))
    | [] => none

/-- Parse a JSON string literal starting after the opening quote. -/
def pString (cs : List Char) : Option (String × List Char) :=
  (pStringChars (cs.length + 1) cs).map (fun p => (String.mk p.1, p.2))

/-- Take a maximal run of decimal digits. -/
def takeDigits : List Char → List Char × List Char
  | c :: rest =>
    if c.isDigit then
      let p := takeDigits rest
      (c :: p.1, p.2)
    else ([], c :: rest)
  | [] => ([], [])

/-- Numeric value of a digit run. -/
def digitsToNat (ds : List Char) : Nat :=
  ds.foldl (fun acc c => acc * 10 + (c.toNat - 48)) 0

/-- Parse a JSON number literal: optional minus, integer part without a
leading zero, optional fraction (at least one digit), optional exponent
(at least one digit).  Produces the exact rational value and the
integer-literal flag. -/
def pNumber (cs : List Char) : Option (Json × List Char) :=
  let (neg, cs1) :=
    match cs with
    | '-' :: rest => (true, rest)
    | _ => (false, cs)
  match cs1 with
  | c :: _ =>
    if !c.isDigit then none
    else
      let (ids, cs2) := takeDigits cs1
      if ids.length > 1 ∧ ids.headD '0' = '0' then none
      else
        let (fds, cs3) :=
          match cs2 with
          | '.' :: rest => takeDigits rest
          | _ => ([], cs2)
        let hasFracDot := match cs2 with | '.' :: _ => true | _ => false
        if hasFracDot ∧ fds = [] then none
        else
          let (hasExp, expNeg, eds, cs4) :=
            match cs3 with
            | 'e' :: '+' :: rest => let p := takeDigits rest; (true, false, p.1, p.2)
            | 'e' :: '-' :: rest => let p := takeDigits rest; (true, true, p.1, p.2)
            | 'e' :: rest => let p := takeDigits rest; (true, false, p.1, p.2)
            | 'E' :: '+' :: rest => let p := takeDigits rest; (true, false, p.1, p.2)
            | 'E' :: '-' :: rest => let p := takeDigits rest; (true, true, p.1, p.2)
            | 'E' :: rest => let p := takeDigits rest; (true, false, p.1, p.2)
            | _ => (false, false, [], cs3)
          if hasExp ∧ eds = [] then none
          else
            let mantissa : Int := Int.ofNat (digitsToNat (ids ++ fds))
            let signedMantissa := if neg then -mantissa else mantissa
            let exp10 : Int :=
              (if expNeg then -(Int.ofNat (digitsToNat eds)) else Int.ofNat (digitsToNat eds))
                - Int.ofNat fds.length
            let q : ℚ := (signedMantissa : ℚ) * (10 : ℚ) ^ exp10
            some (Json.num (!hasFracDot && !hasExp) q, cs4)
  | [] => none

mutual

/-- Modelled from the spec: recursive-descent JSON value parser (fuel-
indexed for totality; fuel is consumed on every recursive step). -/
def pValue : Nat → List Char → Option (Json × List Char)
  | 0, _ => none
  | fuel + 1, cs =>
    match skipWs cs with
    | 'n' :: 'u' :: 'l' :: 'l' :: rest => some (Json.null, rest)
    | 't' :: 'r' :: 'u' :: 'e' :: rest => some (Json.bool true, rest)
    | 'f' :: 'a' :: 'l' :: 's' :: 'e' :: rest => some (Json.bool false, rest)
    | '"' :: rest => (pString rest).map (fun p => (Json.str p.1, p.2))
    | '[' :: rest =>
      (match skipWs rest with
       | ']' :: rest2 => some (Json.arr [], rest2)
       | cs2 =>
         match pValue fuel cs2 with
         | none => none
         | some (v, rest2) =>
           match pArrayTail fuel rest2 with
           | none => none
           | some (vs, rest3) => some (Json.arr (v :: vs), rest3))
    | '{' :: rest =>
      (match skipWs rest with
       | '}' :: rest2 => some (Json.obj [], rest2)
       | cs2 =>
         match pMember fuel cs2 with
         | none => none
         | some (kv, rest2) =>
           match pObjectTail fuel rest2 with
           | none => none
           | some (kvs, rest3) => some (Json.obj (kv :: kvs), rest3))
    | cs2 => pNumber cs2

/-- Array continuation: after one element, expect "," element ... or "]". -/
def pArrayTail : Nat → List Char → Option (List Json × List Char)
  | 0, _ => none
  | fuel + 1, cs =>
    match skipWs cs with
    | ',' :: rest =>
      (match pValue fuel rest with
       | none => none
       | some (v, rest2) =>
         match pArrayTail fuel rest2 with
         | none => none
         | some (vs, rest3) => some (v :: vs, rest3))
    | ']' :: rest => some ([], rest)
    | _ => none

/-- One object member: string key, colon, value. -/
def pMember : Nat → List Char → Option ((String × Json) × List Char)
  | 0, _ => none
  | fuel + 1, cs =>
    match skipWs cs with
    | '"' :: rest =>
      (match pString rest with
       | none => none
       | some (k, rest2) =>
         match skipWs rest2 with
         | ':' :: rest3 =>
           (match pValue fuel rest3 with
            | none => none
            | some (v, rest4) => some ((k, v), rest4))
         | _ => none)
    | _ => none

/-- Object continuation: after one member, expect "," member ... or the
closing brace. -/
def pObjectTail : Nat → List Char → Option (List (String × Json) × List Char)
  | 0, _ => none
  | fuel + 1, cs =>
    match skipWs cs with
    | ',' :: rest =>
      (match pMember fuel rest with
       | none => none
       | some (kv, rest2) =>
         match pObjectTail fuel rest2 with
         | none => none
         | some (kvs, rest3) => some (kv :: kvs, rest3))
    | '}' :: rest => some ([], rest)
    | _ => none

end

/-- Modelled from the spec: `serde_json::from_str`'s syntax phase — parse a
whole document, requiring only whitespace after the top-level value. -/
def parseJson (s : String) : Option Json :=
  match pValue (s.data.length + 1) s.data with
  | none => none
  | some (v, rest) => if skipWs rest = [] then some v else none

/-- Modelled from the spec: serde decode of a required `String`. -/
def decString : Json → Except String String
  | Json.str s => Except.ok s
  | _ => Except.error "invalid type: expected string"

/-- Modelled from the spec: serde decode of an `Option<String>` value
(null becomes none). -/
def decOptString : Json → Except String (Option String)
  | Json.null => Except.ok none
  | Json.str s => Except.ok (some s)
  | _ => Except.error "invalid type: expected string or null"

/-- Modelled from the spec: serde decode of a required `bool`. -/
def decBool : Json → Except String Bool
  | Json.bool b => Except.ok b
  | _ => Except.error "invalid type: expected boolean"

/-- Modelled from the spec: serde decode of an `Option<bool>` value. -/
def decOptBool : Json → Except String (Option Bool)
  | Json.null => Except.ok none
  | Json.bool b => Except.ok (some b)
  | _ => Except.error "invalid type: expected boolean or null"

/-- Modelled from the spec: serde decode of an `f64` (any JSON number). -/
def decF64 : Json → Except String ℚ
  | Json.num _ q => Except.ok q
  | _ => Except.error "invalid type: expected number"

/-- Modelled from the spec: serde decode of a `u64` — the literal must be
syntactically an integer and in the u64 range. -/
def decU64 : Json → Except String Nat
  | Json.num isInt q =>
    if isInt ∧ q.den = 1 ∧ 0 ≤ q.num ∧ q.num < 2 ^ 64 then
      Except.ok q.num.toNat
    else
      Except.error "invalid type: expected u64"
  | _ => Except.error "invalid type: expected u64"

/-- Modelled from the spec: serde decode of an `Option<u64>` value. -/
def decOptU64 : Json → Except String (Option Nat)
  | Json.null => Except.ok none
  | v => (decU64 v).map some

/-- Field slots while decoding a `ModelQuota` object. -/
structure QuotaSlots where
  remainingFraction : Option ℚ := none
  resetTime : Option (Option String) := none

/-- Modelled from the spec: serde-derive field loop for `ModelQuota`
(known fields `remainingFraction`, `resetTime`; duplicates rejected,
unknown fields ignored). -/
def decModelQuotaFields : List (String × Json) → QuotaSlots → Except String QuotaSlots
  | [], acc => Except.ok acc
  | (k, v) :: rest, acc =>
    if k = "remainingFraction" then
      match acc.remainingFraction with
      | some _ => Except.error "duplicate field remainingFraction"
      | none =>
        match decF64 v with
        | Except.error e => Except.error e
        | Except.ok q => decModelQuotaFields rest { acc with remainingFraction := some q }
    else if k = "resetTime" then
      match acc.resetTime with
      | some _ => Except.error "duplicate field resetTime"
      | none =>
        match decOptString v with
        | Except.error e => Except.error e
        | Except.ok r => decModelQuotaFields rest { acc with resetTime := some r }
    else
      decModelQuotaFields rest acc

/-- Modelled from the spec: serde decode of a `ModelQuota`. -/
def decModelQuota : Json → Except String ModelQuota
  | Json.obj fs =>
    (match decModelQuotaFields fs {} with
     | Except.error e => Except.error e
     | Except.ok slots =>
       match slots.remainingFraction with
       | none => Except.error "missing field remainingFraction"
       | some q => Except.ok { remaining_fraction := q, reset_time := slots.resetTime.getD none })
  | _ => Except.error "invalid type: expected object"

/-- Modelled from the spec: serde decode of a `ModelRateLimit`
(required field `isRateLimited`). -/
def decModelRateLimit : Json → Except String ModelRateLimit
  | Json.obj fs =>
    (match decRateLimitFields fs none with
     | Except.error e => Except.error e
     | Except.ok none => Except.error "missing field isRateLimited"
     | Except.ok (some b) => Except.ok { is_rate_limited := b })
  | _ => Except.error "invalid type: expected object"
where
  decRateLimitFields : List (String × Json) → Option Bool → Except String (Option Bool)
    | [], acc => Except.ok acc
    | (k, v) :: rest, acc =>
      if k = "isRateLimited" then
        match acc with
        | some _ => Except.error "duplicate field isRateLimited"
        | none =>
          match decBool v with
          | Except.error e => Except.error e
          | Except.ok b => decRateLimitFields rest (some b)
      else
        decRateLimitFields rest acc

/-- Modelled from the spec: serde decode of a `HashMap<String, T>` —
a JSON object whose entries are inserted in order (later duplicate keys
overwrite earlier ones, as `HashMap::insert` does). -/
def decMap {α : Type} (decV : Json → Except String α) : Json → Except String (List (String × α))
  | Json.obj fs => goEntries decV fs []
  | _ => Except.error "invalid type: expected object"
where
  goEntries (decV : Json → Except String α) :
      List (String × Json) → List (String × α) → Except String (List (String × α))
    | [], acc => Except.ok acc
    | (k, v) :: rest, acc =>
      match decV v with
      | Except.error e => Except.error e
      | Except.ok x => goEntries decV rest (insertA acc k x)

/-- Modelled from the spec: serde decode of a `Vec<T>`. -/
def decList {α : Type} (decV : Json → Except String α) : Json → Except String (List α)
  | Json.arr xs => goElems decV xs
  | _ => Except.error "invalid type: expected array"
where
  goElems (decV : Json → Except String α) : List Json → Except String (List α)
    | [] => Except.ok []
    | x :: rest =>
      match decV x with
      | Except.error e => Except.error e
      | Except.ok v =>
        match goElems decV rest with
        | Except.error e => Except.error e
        | Except.ok vs => Except.ok (v :: vs)

/-- Modelled from the spec: decode of an optional map-valued field
(null becomes none). -/
def decOptMap {α : Type} (decV : Json → Except String α) :
    Json → Except String (Option (List (String × α)))
  | Json.null => Except.ok none
  | v => (decMap decV v).map some

/-- Field slots while decoding an `Account` object. -/
structure AccountSlots where
  email : Option String := none
  enabled : Option (Option Bool) := none
  limits : Option (Option (List (String × ModelQuota))) := none
  modelRateLimits : Option (Option (List (String × ModelRateLimit))) := none
  isInvalid : Option (Option Bool) := none
  lastUsed : Option (Option Nat) := none

/-- Modelled from the spec: serde-derive field loop for `Account` (serde
renames applied: `limits`, `modelRateLimits`, `isInvalid`, `lastUsed`). -/
def decAccountFields : List (String × Json) → AccountSlots → Except String AccountSlots
  | [], acc => Except.ok acc
  | (k, v) :: rest, acc =>
    if k = "email" then
      match acc.email with
      | some _ => Except.error "duplicate field email"
      | none =>
        match decString v with
        | Except.error e => Except.error e
        | Except.ok s => decAccountFields rest { acc with email := some s }
    else if k = "enabled" then
      match acc.enabled with
      | some _ => Except.error "duplicate field enabled"
      | none =>
        match decOptBool v with
        | Except.error e => Except.error e
        | Except.ok b => decAccountFields rest { acc with enabled := some b }
    else if k = "limits" then
      match acc.limits with
      | some _ => Except.error "duplicate field limits"
      | none =>
        match decOptMap decModelQuota v with
        | Except.error e => Except.error e
        | Except.ok m => decAccountFields rest { acc with limits := some m }
    else if k = "modelRateLimits" then
      match acc.modelRateLimits with
      | some _ => Except.error "duplicate field modelRateLimits"
      | none =>
        match decOptMap decModelRateLimit v with
        | Except.error e => Except.error e
        | Except.ok m => decAccountFields rest { acc with modelRateLimits := some m }
    else if k = "isInvalid" then
      match acc.isInvalid with
      | some _ => Except.error "duplicate field isInvalid"
      | none =>
        match decOptBool v with
        | Except.error e => Except.error e
        | Except.ok b => decAccountFields rest { acc with isInvalid := some b }
    else if k = "lastUsed" then
      match acc.lastUsed with
      | some _ => Except.error "duplicate field lastUsed"
      | none =>
        match decOptU64 v with
        | Except.error e => Except.error e
        | Except.ok n => decAccountFields rest { acc with lastUsed := some n }
    else
      decAccountFields rest acc

/-- Modelled from the spec: serde decode of an `Account` (field `email`
required; all `Option` fields default to none when absent). -/
def decAccount : Json → Except String Account
  | Json.obj fs =>
    (match decAccountFields fs {} with
     | Except.error e => Except.error e
     | Except.ok slots =>
       match slots.email with
       | none => Except.error "missing field email"
       | some email =>
         Except.ok
           { email := email
             enabled := slots.enabled.getD none
             limits := slots.limits.getD none
             model_rate_limits := slots.modelRateLimits.getD none
             is_invalid := slots.isInvalid.getD none
             last_used := slots.lastUsed.getD none })
  | _ => Except.error "invalid type: expected object"

/-- Field slots while decoding an `ApiResponse` object. -/
structure ResponseSlots where
  timestamp : Option (Option String) := none
  accounts : Option (List Account) := none
  models : Option (List String) := none

/-- Modelled from the spec: serde-derive field loop for `ApiResponse`. -/
def decResponseFields : List (String × Json) → ResponseSlots → Except String ResponseSlots
  | [], acc => Except.ok acc
  | (k, v) :: rest, acc =>
    if k = "timestamp" then
      match acc.timestamp with
      | some _ => Except.error "duplicate field timestamp"
      | none =>
        match decOptString v with
        | Except.error e => Except.error e
        | Except.ok t => decResponseFields rest { acc with timestamp := some t }
    else if k = "accounts" then
      match acc.accounts with
      | some _ => Except.error "duplicate field accounts"
      | none =>
        match decList decAccount v with
        | Except.error e => Except.error e
        | Except.ok l => decResponseFields rest { acc with accounts := some l }
    else if k = "models" then
      match acc.models with
      | some _ => Except.error "duplicate field models"
      | none =>
        match decList decString v with
        | Except.error e => Except.error e
        | Except.ok l => decResponseFields rest { acc with models := some l }
    else
      decResponseFields rest acc

/-- Modelled from the spec: serde decode of an `ApiResponse` (fields
`accounts` and `models` required, `timestamp` optional). -/
def decApiResponse : Json → Except String ApiResponse
  | Json.obj fs =>
    (match decResponseFields fs {} with
     | Except.error e => Except.error e
     | Except.ok slots =>
       match slots.accounts with
       | none => Except.error "missing field accounts"
       | some accounts =>
         match slots.models with
         | none => Except.error "missing field models"
         | some models =>
           Except.ok { timestamp := slots.timestamp.getD none
                       accounts := accounts
                       models := models })
  | _ => Except.error "invalid type: expected object"

/-- Modelled from the spec: serde-derive field loop for the wrapper struct
`ApiResponseWrapper` — its single known field is the required string field
`result`; unknown fields are ignored. -/
def decWrapperFields : List (String × Json) → Option String → Except String (Option String)
  | [], acc => Except.ok acc
  | (k, v) :: rest, acc =>
    if k = "result" then
      match acc with
      | some _ => Except.error "duplicate field result"
      | none =>
        match decString v with
        | Except.error e => Except.error e
        | Except.ok s => decWrapperFields rest (some s)
    else
      decWrapperFields rest acc

/-- Modelled from the spec: serde decode of an `ApiResponseWrapper`. -/
def decWrapper : Json → Except String String
  | Json.obj fs =>
    (match decWrapperFields fs none with
     | Except.error e => Except.error e
     | Except.ok none => Except.error "missing field result"
     | Except.ok (some s) => Except.ok s)
  | _ => Except.error "invalid type: expected object"

/-- Decode failure of a fetch cycle, tagged with the `.context(...)` label
that `fetch_data` attaches in main.rs: `innerParse` for "Failed to parse
inner JSON" on the wrapper path, `directParse` for "Failed to parse JSON"
on the direct path. -/
inductive DecodeError where
  | innerParse (msg : String)
  | directParse (msg : String)
deriving Repr, DecidableEq

/-- Result of `serde_json::from_str::<ApiResponse>` on a text, tagged as
the wrapper path's inner parse. -/
def inner_result (inner : String) : Except DecodeError ApiResponse :=
  match parseJson inner with
  | none => Except.error (DecodeError.innerParse "JSON syntax error")
  | some j =>
    match decApiResponse j with
    | Except.error e => Except.error (DecodeError.innerParse e)
    | Except.ok r => Except.ok r

/-- The decode strategy of `fetch_data` (main.rs lines 159-164): try the
wrapper shape first; if it matches, commit to parsing the nested string;
otherwise parse the body directly as an `ApiResponse`. -/
def fetch_decode (text : String) : Except DecodeError ApiResponse :=
  match parseJson text with
  | none => Except.error (DecodeError.directParse "JSON syntax error")
  | some j =>
    match decWrapper j with
    | Except.ok inner => inner_result inner
    | Except.error _ =>
      match decApiResponse j with
      | Except.error e => Except.error (DecodeError.directParse e)
      | Except.ok r => Except.ok r

/-- Aggregator bucket predicate: counted as invalid (`count_stats` first
branch). -/
def countsAsInvalid (a : Account) : Bool := a.is_invalid.getD false

/-- Aggregator bucket predicate: counted as rate-limited (`count_stats`
second branch — note this fires before the enabled check). -/
def countsAsRateLimited (a : Account) : Bool :=
  !(a.is_invalid.getD false) && anyRateLimited a

/-- Aggregator bucket predicate: counted as available (`count_stats` third
branch). -/
def countsAsAvailable (a : Account) : Bool :=
  !(a.is_invalid.getD false) && !(anyRateLimited a) && a.enabled.getD true

/-- Aggregator drop predicate: counted in no bucket (disabled, not
invalid, no rate-limited model). -/
def droppedFromCounts (a : Account) : Bool :=
  !(a.is_invalid.getD false) && !(anyRateLimited a) && !(a.enabled.getD true)

/-- An account that is disabled and also has a rate-limited model. -/
def disabledLimitedAccount : Account :=
  { email := "a@b", enabled := some false,
    model_rate_limits := some [("m", ⟨true⟩)] }

/-- An account with one quota entry at remaining fraction 33/64. -/
def truncPctAccount : Account :=
  { email := "q@x", limits := some [("m", ⟨33 / 64, none⟩)] }

/-- An account with an exhausted quota entry for model "m1" and no entry
for model "m2". -/
def gridAccount : Account :=
  { email := "g@x",
    limits := some [("m1", ⟨0, some "2024-06-01T13:05:30Z"⟩)],
    model_rate_limits := some [("m1", ⟨false⟩)] }

/-- An account whose chronologically earliest reset time (the +05:00 one)
is not the lexicographically smallest reset string. -/
def offsetResetAccount : Account :=
  { email := "r@x",
    limits := some [("m1", ⟨1, some "2024-01-01T00:00:00+05:00"⟩),
                    ("m2", ⟨1, some "2023-12-31T20:00:00Z"⟩)] }

/-- An enabled account with one rate-limited model out of two. -/
def limitedAccount : Account :=
  { email := "l@x",
    model_rate_limits := some [("m1", ⟨true⟩), ("m2", ⟨false⟩)] }

/-- Modelled from the spec: the direct payload shape of the inbound data
contract — a JSON object whose fields are drawn from timestamp, accounts
and models only, without duplicate keys. -/
def directShape (fields : List (String × Json)) : Prop :=
  (fields.map Prod.fst).Nodup
  ∧ ∀ k ∈ fields.map Prod.fst, k = "timestamp" ∨ k = "accounts" ∨ k = "models"

/-- A rate-limit association list has a rate-limited entry iff the filter
the classifier counts is nonempty. -/
theorem filter_length_pos_iff (rl : List (String × ModelRateLimit)) :
    0 < (rl.filter (fun r => r.2.is_rate_limited)).length ↔
      ∃ p ∈ rl, p.2.is_rate_limited = true := by
  rw [List.length_pos]
  constructor
  · intro h
    obtain ⟨p, hp⟩ := List.exists_mem_of_ne_nil _ h
    exact ⟨p, (List.mem_filter.mp hp).1, (List.mem_filter.mp hp).2⟩
  · rintro ⟨p, hmem, hlim⟩
    exact List.ne_nil_of_mem (List.mem_filter.mpr ⟨hmem, hlim⟩)

/-- C1: for every account the Status Classifier selects exactly one of
invalid / disabled / limited / ok, in strict priority order — invalid wins
whenever the invalid flag is true; disabled wins over limited and ok
whenever the enabled flag is present and false; limited wins over ok
whenever some entry of the rate-limit mapping is rate-limited — and the
selected kind is invariant under permutation of the rate-limit mapping,
hence independent of HashMap iteration order. -/
theorem c1_status_priority (a : Account) :
    (statusKind a = "invalid" ∨ statusKind a = "disabled" ∨
      statusKind a = "limited" ∨ statusKind a = "ok")
    ∧ (a.is_invalid.getD false = true → statusKind a = "invalid")
    ∧ (a.is_invalid.getD false = false → a.enabled.getD true = false →
        statusKind a = "disabled")
    ∧ (a.is_invalid.getD false = false → a.enabled.getD true = true →
        (∃ rl, a.model_rate_limits = some rl ∧ ∃ p ∈ rl, p.2.is_rate_limited = true) →
        statusKind a = "limited")
    ∧ (a.is_invalid.getD false = false → a.enabled.getD true = true →
        (¬ ∃ rl, a.model_rate_limits = some rl ∧ ∃ p ∈ rl, p.2.is_rate_limited = true) →
        statusKind a = "ok")
    ∧ (∀ rl rl', a.model_rate_limits = some rl → rl.Perm rl' →
        statusKind { a with model_rate_limits := some rl' } = statusKind a) := by
  refine ⟨?_, ?_, ?_, ?_, ?_, ?_⟩
  · by_cases hi : a.is_invalid.getD false
    · simp [statusKind, get_account_status, hi]
    · by_cases he : a.enabled.getD true
      · cases hrl : a.model_rate_limits with
        | none => simp [statusKind, get_account_status, hi, he, hrl]
        | some rl =>
          by_cases hl : 0 < (rl.filter (fun r => r.2.is_rate_limited)).length
          · simp [statusKind, get_account_status, hi, he, hrl, hl]
          · simp [statusKind, get_account_status, hi, he, hrl, hl]
      · simp [statusKind, get_account_status, hi, he]
  · intro hi
    simp [statusKind, get_account_status, hi]
  · intro hi he
    simp [statusKind, get_account_status, hi, he]
  · intro hi he hex
    obtain ⟨rl, hrl, hp⟩ := hex
    have hl : 0 < (rl.filter (fun r => r.2.is_rate_limited)).length :=
      (filter_length_pos_iff rl).mpr hp
    simp [statusKind, get_account_status, hi, he, hrl, hl]
  · intro hi he hnex
    cases hrl : a.model_rate_limits with
    | none => simp [statusKind, get_account_status, hi, he, hrl]
    | some rl =>
      have hl : ¬ 0 < (rl.filter (fun r => r.2.is_rate_limited)).length := by
        rw [filter_length_pos_iff]
        intro hp
        exact hnex ⟨rl, hrl, hp⟩
      simp [statusKind, get_account_status, hi, he, hrl, hl]
  · intro rl rl' hrl hperm
    by_cases hi : a.is_invalid.getD false
    · simp [statusKind, get_account_status, hi]
    · by_cases he : a.enabled.getD true
      · have hlen : (rl'.filter (fun r => r.2.is_rate_limited)).length =
            (rl.filter (fun r => r.2.is_rate_limited)).length :=
          (hperm.filter _).length_eq.symm
        simp [statusKind, get_account_status, hi, he, hrl, hlen]
      · simp [statusKind, get_account_status, hi, he]

/-- Concrete instantiations of `c1_status_priority`: an account with the
invalid flag set classifies invalid; a disabled account with a rate-limited
model classifies disabled; an enabled account with a rate-limited model
classifies limited. -/
theorem c1_status_priority_witness :
    statusKind { email := "a@x", is_invalid := some true,
                 model_rate_limits := some [("m", ⟨true⟩)] } = "invalid"
    ∧ statusKind { email := "b@x", enabled := some false,
                   model_rate_limits := some [("m", ⟨true⟩)] } = "disabled"
    ∧ statusKind { email := "c@x",
                   model_rate_limits := some [("m", ⟨true⟩)] } = "limited" :=
  ⟨(c1_status_priority _).2.1 rfl,
   (c1_status_priority _).2.2.1 rfl rfl,
   (c1_status_priority _).2.2.2.1 rfl rfl ⟨[("m", ⟨true⟩)], rfl, ("m", ⟨true⟩), by simp, rfl⟩⟩

/-- An account's status is "invalid" exactly when the invalid flag
defaults to true. -/
theorem statusKind_eq_invalid_iff (a : Account) :
    statusKind a = "invalid" ↔ a.is_invalid.getD false = true := by
  by_cases hi : a.is_invalid.getD false
  · simp [statusKind, get_account_status, hi]
  · by_cases he : a.enabled.getD true
    · cases hrl : a.model_rate_limits with
      | none => simp [statusKind, get_account_status, hi, he, hrl]
      | some rl =>
        by_cases hl : 0 < (rl.filter (fun r => r.2.is_rate_limited)).length
        · simp [statusKind, get_account_status, hi, he, hrl, hl]
        · simp [statusKind, get_account_status, hi, he, hrl, hl]
    · simp [statusKind, get_account_status, hi, he]

/-- The `anyRateLimited` test of the aggregator agrees with the filter
count the classifier uses. -/
theorem anyRateLimited_iff (a : Account) :
    anyRateLimited a = true ↔
      ∃ rl, a.model_rate_limits = some rl ∧
        0 < (rl.filter (fun r => r.2.is_rate_limited)).length := by
  cases hrl : a.model_rate_limits with
  | none => simp [anyRateLimited, hrl]
  | some rl =>
    simp [anyRateLimited, hrl, List.any_eq_true, filter_length_pos_iff]

/-- An account's status is "limited" exactly when it is not invalid, not
disabled, and some entry of its rate-limit mapping is rate-limited. -/
theorem statusKind_eq_limited_iff (a : Account) :
    statusKind a = "limited" ↔
      (a.is_invalid.getD false = false ∧ a.enabled.getD true = true ∧
        anyRateLimited a = true) := by
  by_cases hi : a.is_invalid.getD false
  · simp [statusKind, get_account_status, hi]
  · by_cases he : a.enabled.getD true
    · cases hrl : a.model_rate_limits with
      | none => simp [statusKind, get_account_status, anyRateLimited, hi, he, hrl]
      | some rl =>
        by_cases hl : 0 < (rl.filter (fun r => r.2.is_rate_limited)).length
        · simp only [statusKind, get_account_status, hi, he, hrl, hl]
          simp [anyRateLimited_iff, hi, he, hrl, hl]
        · simp only [statusKind, get_account_status, hi, he, hrl, hl]
          simp [anyRateLimited_iff, hi, he, hrl, hl]
    · simp [statusKind, get_account_status, hi, he]

/-- An account's status is "disabled" exactly when it is not invalid and
the enabled flag defaults to false. -/
theorem statusKind_eq_disabled_iff (a : Account) :
    statusKind a = "disabled" ↔
      (a.is_invalid.getD false = false ∧ a.enabled.getD true = false) := by
  by_cases hi : a.is_invalid.getD false
  · simp [statusKind, get_account_status, hi]
  · by_cases he : a.enabled.getD true
    · cases hrl : a.model_rate_limits with
      | none => simp [statusKind, get_account_status, hi, he, hrl]
      | some rl =>
        by_cases hl : 0 < (rl.filter (fun r => r.2.is_rate_limited)).length
        · simp [statusKind, get_account_status, hi, he, hrl, hl]
        · simp [statusKind, get_account_status, hi, he, hrl, hl]
    · simp [statusKind, get_account_status, hi, he]

/-- An account's status is "ok" exactly when it is not invalid, not
disabled, and no entry of its rate-limit mapping is rate-limited. -/
theorem statusKind_eq_ok_iff (a : Account) :
    statusKind a = "ok" ↔
      (a.is_invalid.getD false = false ∧ a.enabled.getD true = true ∧
        anyRateLimited a = false) := by
  by_cases hi : a.is_invalid.getD false
  · simp [statusKind, get_account_status, hi]
  · by_cases he : a.enabled.getD true
    · cases hrl : a.model_rate_limits with
      | none => simp [statusKind, get_account_status, anyRateLimited, hi, he, hrl]
      | some rl =>
        by_cases hl : 0 < (rl.filter (fun r => r.2.is_rate_limited)).length
        · have hany : anyRateLimited a = true :=
            (anyRateLimited_iff a).mpr ⟨rl, hrl, hl⟩
          simp [statusKind, get_account_status, hi, he, hrl, hl, hany]
        · have hany : anyRateLimited a = false := by
            cases hval : anyRateLimited a
            · rfl
            · obtain ⟨rl', hrl', hpos⟩ := (anyRateLimited_iff a).mp hval
              rw [hrl] at hrl'
              cases hrl'
              exact absurd hpos hl
          simp [statusKind, get_account_status, hi, he, hrl, hl, hany]
    · simp [statusKind, get_account_status, hi, he]

/-- The aggregator's three counters count exactly the three bucket
predicates. -/
theorem count_stats_eq_countP (accounts : List Account) :
    count_stats accounts =
      (accounts.countP countsAsAvailable,
       accounts.countP countsAsRateLimited,
       accounts.countP countsAsInvalid) := by
  induction accounts with
  | nil => simp [count_stats]
  | cons a rest ih =>
    simp only [count_stats, List.countP_cons, ih]
    by_cases hi : a.is_invalid.getD false
    · simp [countsAsInvalid, countsAsRateLimited, countsAsAvailable, hi]
    · by_cases hr : anyRateLimited a
      · simp [countsAsInvalid, countsAsRateLimited, countsAsAvailable, hi, hr]
      · by_cases he : a.enabled.getD true
        · simp [countsAsInvalid, countsAsRateLimited, countsAsAvailable, hi, hr, he]
        · simp [countsAsInvalid, countsAsRateLimited, countsAsAvailable, hi, hr, he]

/-- C3 counterexample: a disabled account with a rate-limited model is
classified "disabled" by the Status Classifier, yet the Aggregator counts
it in the rate-limited bucket — not in none of the buckets as the claim
states (`count_stats` tests the rate-limit mapping before the enabled
flag). -/
theorem c3_counterexample :
    statusKind disabledLimitedAccount = "disabled"
    ∧ count_stats [disabledLimitedAccount] = (0, 1, 0) := by
  constructor
  · rfl
  · rfl

/-- C3 (amended): the Aggregator's buckets follow the priority
invalid > rate-limited > available, which mirrors the classifier except
that the rate-limit test precedes the enabled test: an account classified
invalid counts only as invalid; an account with a rate-limited model and
the invalid flag clear counts only as rate-limited even when it is
disabled; an account classified ok counts as available; and a disabled
account counts in none of the buckets only when it also has no
rate-limited model. -/
theorem c3_aggregator_buckets (accounts : List Account) :
    count_stats accounts =
      (accounts.countP countsAsAvailable,
       accounts.countP countsAsRateLimited,
       accounts.countP countsAsInvalid)
    ∧ (∀ a : Account,
        (statusKind a = "invalid" ↔ countsAsInvalid a = true)
        ∧ (statusKind a = "limited" → countsAsRateLimited a = true)
        ∧ (statusKind a = "ok" → countsAsAvailable a = true)
        ∧ (statusKind a = "disabled" →
            (countsAsInvalid a = false ∧ countsAsAvailable a = false
              ∧ (countsAsRateLimited a = true ↔ anyRateLimited a = true)))) := by
  refine ⟨count_stats_eq_countP accounts, fun a => ⟨?_, ?_, ?_, ?_⟩⟩
  · rw [statusKind_eq_invalid_iff]
    simp [countsAsInvalid]
  · rw [statusKind_eq_limited_iff]
    rintro ⟨hi, _, hr⟩
    simp [countsAsRateLimited, hi, hr]
  · rw [statusKind_eq_ok_iff]
    rintro ⟨hi, he, hr⟩
    simp [countsAsAvailable, hi, he, hr]
  · rw [statusKind_eq_disabled_iff]
    rintro ⟨hi, he⟩
    simp [countsAsInvalid, countsAsAvailable, countsAsRateLimited, hi, he]

/-- Concrete instantiation of `c3_aggregator_buckets` at the
disabled-and-rate-limited account. -/
theorem c3_aggregator_buckets_witness :
    count_stats [disabledLimitedAccount] =
      ([disabledLimitedAccount].countP countsAsAvailable,
       [disabledLimitedAccount].countP countsAsRateLimited,
       [disabledLimitedAccount].countP countsAsInvalid)
    ∧ countsAsRateLimited disabledLimitedAccount = true :=
  ⟨(c3_aggregator_buckets [disabledLimitedAccount]).1,
   (((c3_aggregator_buckets []).2 disabledLimitedAccount).2.2.2 (by rfl)).2.2.mpr (by rfl)⟩

/-- The three aggregator counters plus the dropped accounts partition the
account list. -/
theorem count_stats_partition (accounts : List Account) :
    (count_stats accounts).1 + (count_stats accounts).2.1 + (count_stats accounts).2.2
      + accounts.countP droppedFromCounts = accounts.length := by
  induction accounts with
  | nil => simp [count_stats]
  | cons a rest ih =>
    simp only [count_stats, List.countP_cons, List.length_cons]
    by_cases hi : a.is_invalid.getD false
    · simp [droppedFromCounts, hi]
      omega
    · by_cases hr : anyRateLimited a
      · simp [droppedFromCounts, hi, hr]
        omega
      · by_cases he : a.enabled.getD true
        · simp [droppedFromCounts, hi, hr, he]
          omega
        · simp [droppedFromCounts, hi, hr, he]
          omega

/-- C4: available + rate_limited + invalid is at most the number of
accounts, with equality exactly when no account is
disabled-and-otherwise-ok (disabled, not invalid, no rate-limited
model). -/
theorem c4_counts_bound (accounts : List Account) :
    ((count_stats accounts).1 + (count_stats accounts).2.1 + (count_stats accounts).2.2
        ≤ accounts.length)
    ∧ ((count_stats accounts).1 + (count_stats accounts).2.1 + (count_stats accounts).2.2
          = accounts.length ↔
        ∀ a ∈ accounts,
          ¬(a.enabled.getD true = false ∧ a.is_invalid.getD false = false
              ∧ anyRateLimited a = false)) := by
  have hpart := count_stats_partition accounts
  constructor
  · omega
  · constructor
    · intro h a hmem hcontra
      have hzero : accounts.countP droppedFromCounts = 0 := by omega
      rw [List.countP_eq_zero] at hzero
      have hdrop := hzero a hmem
      simp [droppedFromCounts, hcontra.1, hcontra.2.1, hcontra.2.2] at hdrop
    · intro h
      have hzero : accounts.countP droppedFromCounts = 0 := by
        rw [List.countP_eq_zero]
        intro a hmem hdrop
        simp only [droppedFromCounts, Bool.and_eq_true, Bool.not_eq_true'] at hdrop
        exact h a hmem ⟨hdrop.2, hdrop.1.1, hdrop.1.2⟩
      omega

/-- Concrete instantiation of `c4_counts_bound`: with one ok account and
one disabled-and-otherwise-ok account the sum of the three counters is 1,
strictly below the account total of 2. -/
theorem c4_counts_bound_witness :
    (count_stats [{ email := "a@x" }, { email := "b@x", enabled := some false }]).1
      + (count_stats [{ email := "a@x" }, { email := "b@x", enabled := some false }]).2.1
      + (count_stats [{ email := "a@x" }, { email := "b@x", enabled := some false }]).2.2
      ≤ ([{ email := "a@x" }, { email := "b@x", enabled := some false }] : List Account).length :=
  (c4_counts_bound [{ email := "a@x" }, { email := "b@x", enabled := some false }]).1

/-- C5 counterexample: at remaining_fraction = 33/64 = 0.515625 (exactly
representable in f64, with an exact f64 product 51.5625) the grid displays
51 — the code truncates `(fraction * 100.0) as u32` — whereas
round(fraction × 100) = round(51.5625) = 52, so the displayed value is not
the rounding. -/
theorem c5_counterexample :
    cell_pct truncPctAccount "m" = some 51
    ∧ round (((33 : ℚ) / 64) * 100) = 52
    ∧ cell_pct truncPctAccount "m" ≠ some ((round (((33 : ℚ) / 64) * 100)).toNat) := by
  have hfloor : (⌊((33 : ℚ) / 64) * 100⌋ : ℤ) = 51 := by
    rw [Int.floor_eq_iff] <;> norm_num
  have hcell : cell_pct truncPctAccount "m" = some 51 := by
    show some (pct_of_fraction ((33 : ℚ) / 64)) = some 51
    simp only [pct_of_fraction, hfloor]
    decide
  have hround : round (((33 : ℚ) / 64) * 100) = 52 := by
    rw [round_eq]
    norm_num [Int.floor_eq_iff]
  refine ⟨hcell, hround, ?_⟩
  rw [hcell, hround]
  simp

/-- C5 (amended): for every (account, model) pair with a quota entry whose
remaining fraction lies in [0, 1], the percentage displayed in the
quota-grid cell is the truncation ⌊remaining_fraction × 100⌋ — not the
rounding — and the u32 saturation of the cast never binds on this range. -/
theorem c5_pct_truncates (a : Account) (m : String)
    (limits : List (String × ModelQuota)) (q : ModelQuota)
    (h1 : a.limits = some limits) (h2 : lookupA limits m = some q)
    (h3 : 0 ≤ q.remaining_fraction) (h4 : q.remaining_fraction ≤ 1) :
    cell_pct a m = some ((⌊q.remaining_fraction * 100⌋).toNat) := by
  have hle : ⌊q.remaining_fraction * 100⌋ ≤ 100 := by
    have hq : q.remaining_fraction * 100 ≤ 100 := by nlinarith
    calc ⌊q.remaining_fraction * 100⌋
        ≤ ⌊(100 : ℚ)⌋ := Int.floor_le_floor hq
      _ = 100 := by norm_num
  have htn : (⌊q.remaining_fraction * 100⌋).toNat ≤ 100 := by omega
  have h32 : (2 : ℕ) ^ 32 - 1 = 4294967295 := by norm_num
  simp only [cell_pct, h1, h2, Option.map_some', pct_of_fraction, h32,
    Option.some.injEq]
  exact min_eq_left (by omega)

/-- Concrete instantiation of `c5_pct_truncates` at the 33/64 account. -/
theorem c5_pct_truncates_witness :
    cell_pct truncPctAccount "m" = some ((⌊(33 / 64 : ℚ) * 100⌋).toNat) :=
  c5_pct_truncates truncPctAccount "m" [("m", ⟨33 / 64, none⟩)] ⟨33 / 64, none⟩
    rfl rfl (by norm_num) (by norm_num)

/-- C6: the quota-grid rows are exactly the server-declared model list; a
cell with a quota entry is exhausted iff remaining_fraction ≤ 0 or the
model is flagged rate-limited for the account, with the wait suffix
present iff the entry has a reset time; low iff not exhausted and the
fraction is below 3/10; healthy otherwise; and the cell is N/A exactly
when the account has no quota entry for the model, regardless of the
account's overall status. -/
theorem c6_cell_classification (data : ApiResponse) (a : Account) (m : String) :
    ((quota_grid data).map Prod.fst = data.models)
    ∧ (∀ limits q, a.limits = some limits → lookupA limits m = some q →
        ((cell_kind a m = CellKind.exhausted q.reset_time.isSome ↔
            (q.remaining_fraction ≤ 0 ∨ model_is_limited a m = true))
          ∧ (∀ w, cell_kind a m = CellKind.exhausted w → w = q.reset_time.isSome)
          ∧ (cell_kind a m = CellKind.low ↔
              (¬(q.remaining_fraction ≤ 0 ∨ model_is_limited a m = true)
                ∧ q.remaining_fraction < 3 / 10))
          ∧ (cell_kind a m = CellKind.healthy ↔
              (¬(q.remaining_fraction ≤ 0 ∨ model_is_limited a m = true)
                ∧ ¬(q.remaining_fraction < 3 / 10)))))
    ∧ (cell_kind a m = CellKind.na ↔
        ¬ ∃ limits q, a.limits = some limits ∧ lookupA limits m = some q) := by
  refine ⟨?_, ?_, ?_⟩
  · show (data.models.map
        (fun model => (model, data.accounts.map (fun a => cell_kind a model)))).map
          Prod.fst = data.models
    generalize data.models = l
    induction l with
    | nil => rfl
    | cons x xs ih => simp only [List.map_cons, ih]
  · intro limits q h1 h2
    by_cases hex : q.remaining_fraction ≤ 0 ∨ model_is_limited a m = true
    · simp [cell_kind, h1, h2, hex]
    · by_cases hlow : q.remaining_fraction < 3 / 10
      · simp [cell_kind, h1, h2, hex, hlow]
      · simp [cell_kind, h1, h2, hex, hlow]
  · cases hl : a.limits with
    | none => simp [cell_kind, hl]
    | some limits =>
      cases hq : lookupA limits m with
      | none => simp [cell_kind, hl, hq]
      | some q =>
        constructor
        · intro hk
          exfalso
          revert hk
          simp only [cell_kind, hl, hq]
          split_ifs <;> simp
        · intro hnex
          exact absurd ⟨limits, q, rfl, hq⟩ hnex

/-- Concrete instantiation of `c6_cell_classification`: a zero-fraction
entry renders exhausted with the wait suffix, a missing entry renders N/A,
and the grid rows are the declared model list. -/
theorem c6_cell_classification_witness :
    (quota_grid { accounts := [gridAccount], models := ["m1", "m2"] }).map Prod.fst
        = ["m1", "m2"]
    ∧ cell_kind gridAccount "m1" = CellKind.exhausted true
    ∧ cell_kind gridAccount "m2" = CellKind.na :=
  ⟨(c6_cell_classification { accounts := [gridAccount], models := ["m1", "m2"] }
      gridAccount "m1").1,
   ((c6_cell_classification { accounts := [gridAccount], models := ["m1", "m2"] }
      gridAccount "m1").2.1 [("m1", ⟨0, some "2024-06-01T13:05:30Z"⟩)]
      ⟨0, some "2024-06-01T13:05:30Z"⟩ rfl rfl).1.mpr (Or.inl (by decide)),
   (c6_cell_classification { accounts := [gridAccount], models := ["m1", "m2"] }
      gridAccount "m2").2.2.mpr (by
        rintro ⟨limits, q, hl, hq⟩
        have hl2 : some [("m1", (⟨0, some "2024-06-01T13:05:30Z"⟩ : ModelQuota))]
            = some limits := hl
        cases hl2
        simp [lookupA] at hq)⟩

/-- The byte-lexicographic order is reflexive. -/
theorem charListLe_refl : ∀ l : List Char, charListLe l l = true
  | [] => rfl
  | a :: as1 => by
    simp only [charListLe]
    split_ifs with h1
    · rfl
    · exact charListLe_refl as1

/-- The byte-lexicographic order is total. -/
theorem charListLe_total : ∀ l1 l2 : List Char,
    charListLe l1 l2 = true ∨ charListLe l2 l1 = true
  | [], _ => Or.inl rfl
  | _ :: _, [] => Or.inr rfl
  | a :: as1, b :: bs => by
    by_cases hab : a.toNat < b.toNat
    · left
      simp [charListLe, hab]
    · by_cases hba : b.toNat < a.toNat
      · right
        simp [charListLe, hba]
      · rcases charListLe_total as1 bs with h | h
        · left
          simp [charListLe, hab, hba, h]
        · right
          simp [charListLe, hab, hba, h]

/-- The byte-lexicographic order is transitive. -/
theorem charListLe_trans : ∀ l1 l2 l3 : List Char,
    charListLe l1 l2 = true → charListLe l2 l3 = true → charListLe l1 l3 = true
  | [], _, _, _, _ => rfl
  | _ :: _, [], _, h12, _ => by simp [charListLe] at h12
  | _ :: _, _ :: _, [], _, h23 => by simp [charListLe] at h23
  | a :: as1, b :: bs, c :: cs, h12, h23 => by
    have hrec := charListLe_trans as1 bs cs
    simp only [charListLe] at h12 h23 ⊢
    split_ifs at h12 h23 ⊢ <;>
      first
        | rfl
        | omega
        | (exact hrec h12 h23)
        | simp_all

/-- `strMin?` returns none only on the empty list. -/
theorem strMin?_eq_none : ∀ l : List String, strMin? l = none ↔ l = []
  | [] => by simp [strMin?]
  | s :: rest => by
    simp only [strMin?]
    cases h : strMin? rest <;> simp

/-- The value of `strMin?` is a member of the list and a `strLe` lower
bound for it. -/
theorem strMin?_spec : ∀ (l : List String) (s : String), strMin? l = some s →
    s ∈ l ∧ ∀ t ∈ l, strLe s t = true
  | [], s, h => by simp [strMin?] at h
  | x :: rest, s, h => by
    simp only [strMin?] at h
    cases hrest : strMin? rest with
    | none =>
      simp only [hrest] at h
      have hx : x = s := Option.some.inj h
      have hrnil : rest = [] := (strMin?_eq_none rest).mp hrest
      subst hx
      subst hrnil
      refine ⟨List.mem_singleton_self x, ?_⟩
      intro u hu
      rw [List.mem_singleton] at hu
      subst hu
      exact charListLe_refl _
    | some t =>
      simp only [hrest] at h
      obtain ⟨hmem, hall⟩ := strMin?_spec rest t hrest
      by_cases hle : strLe x t = true
      · have hs : x = s := by
          rw [if_pos hle] at h
          exact Option.some.inj h
        subst hs
        refine ⟨List.mem_cons_self x rest, ?_⟩
        intro u hu
        rcases List.mem_cons.mp hu with hux | hur
        · subst hux
          exact charListLe_refl _
        · exact charListLe_trans _ _ _ hle (hall u hur)
      · have hs : t = s := by
          rw [if_neg hle] at h
          exact Option.some.inj h
        subst hs
        refine ⟨List.mem_cons_of_mem x hmem, ?_⟩
        intro u hu
        rcases List.mem_cons.mp hu with hux | hur
        · subst hux
          rcases charListLe_total u.data t.data with htot | htot
          · exact absurd htot hle
          · exact htot
        · exact hall u hur

/-- C7 counterexample: the account's reset times are
2024-01-01T00:00:00+05:00 (epoch 1704049200) and 2023-12-31T20:00:00Z
(epoch 1704052800).  The chronologically earliest (minimum by timestamp)
is the former, but the code's `min()` over the raw strings picks the
latter, so the "Quota Reset" column does not display the minimum by
timestamp. -/
theorem c7_counterexample :
    account_reset_pick offsetResetAccount = some "2023-12-31T20:00:00Z"
    ∧ rfc3339ToEpoch "2024-01-01T00:00:00+05:00" = some 1704049200
    ∧ rfc3339ToEpoch "2023-12-31T20:00:00Z" = some 1704052800
    ∧ (1704049200 : Int) < 1704052800 :=
  ⟨by decide, by decide, by decide, by decide⟩

/-- C7 (amended): for every account with at least one reset time, the
"Quota Reset" column displays the minimum of the account's reset-time
strings in lexicographic byte order — which coincides with the minimum by
timestamp only when the strings share a uniform format and offset. -/
theorem c7_reset_pick_lex_min (a : Account) (limits : List (String × ModelQuota))
    (h : a.limits = some limits) (hne : account_reset_times a ≠ []) :
    ∃ s, account_reset_pick a = some s ∧ s ∈ account_reset_times a
      ∧ ∀ t ∈ account_reset_times a, strLe s t = true := by
  have htimes : account_reset_times a = limits.filterMap (fun q => q.2.reset_time) := by
    simp [account_reset_times, h]
  cases hmin : strMin? (limits.filterMap (fun q => q.2.reset_time)) with
  | none =>
    exact absurd (htimes.trans ((strMin?_eq_none _).mp hmin)) hne
  | some s =>
    obtain ⟨hmem, hall⟩ := strMin?_spec _ s hmin
    refine ⟨s, ?_, ?_, ?_⟩
    · simp [account_reset_pick, h, hmin]
    · rw [htimes]
      exact hmem
    · rw [htimes]
      exact hall

/-- Concrete instantiation of `c7_reset_pick_lex_min` at the two-reset
account. -/
theorem c7_reset_pick_lex_min_witness :
    ∃ s, account_reset_pick offsetResetAccount = some s
      ∧ s ∈ account_reset_times offsetResetAccount
      ∧ ∀ t ∈ account_reset_times offsetResetAccount, strLe s t = true :=
  c7_reset_pick_lex_min offsetResetAccount
    [("m1", ⟨1, some "2024-01-01T00:00:00+05:00"⟩),
     ("m2", ⟨1, some "2023-12-31T20:00:00Z"⟩)] rfl (by decide)

/-- C8: for every account whose status is limited, the rate-limit mapping
is present and the displayed status label is
"(limited_count/total_count) limited", where limited_count is the number
of currently rate-limited entries and total_count is the total number of
models in the account's rate-limit mapping. -/
theorem c8_limited_label (a : Account) (h : statusKind a = "limited") :
    ∃ rl, a.model_rate_limits = some rl
      ∧ 0 < (rl.filter (fun r => r.2.is_rate_limited)).length
      ∧ status_display a =
          "(" ++ toString ((rl.filter (fun r => r.2.is_rate_limited)).length)
            ++ "/" ++ toString rl.length ++ ") limited" := by
  obtain ⟨hi, he, hany⟩ := (statusKind_eq_limited_iff a).mp h
  obtain ⟨rl, hrl, hpos⟩ := (anyRateLimited_iff a).mp hany
  refine ⟨rl, hrl, hpos, ?_⟩
  simp [status_display, h, hrl]

/-- Concrete instantiation of `c8_limited_label`: one of two models
rate-limited yields the label "(1/2) limited". -/
theorem c8_limited_label_witness :
    ∃ rl, limitedAccount.model_rate_limits = some rl
      ∧ 0 < (rl.filter (fun r => r.2.is_rate_limited)).length
      ∧ status_display limitedAccount =
          "(" ++ toString ((rl.filter (fun r => r.2.is_rate_limited)).length)
            ++ "/" ++ toString rl.length ++ ") limited" :=
  c8_limited_label limitedAccount (by decide)

/-- C9: for every reset-time string accepted by the RFC3339 parse (with
epoch second t) and every current time, `format_reset_time` renders the
countdown of the signed remaining seconds: "now" whenever the instant is
not in the future, "1h5m30s" at exactly 1h5m30s ahead, and in general the
largest-nonzero-unit breakdown of hours/minutes/seconds. -/
theorem c9_countdown (s : String) (t nowEpoch : Int)
    (h : rfc3339ToEpoch s = some t) :
    format_reset_time s nowEpoch = countdown_string (t - nowEpoch)
    ∧ (t - nowEpoch ≤ 0 → format_reset_time s nowEpoch = "now")
    ∧ (t - nowEpoch = 3930 → format_reset_time s nowEpoch = "1h5m30s")
    ∧ (0 < t - nowEpoch →
        format_reset_time s nowEpoch =
          (if (t - nowEpoch).tdiv 3600 > 0 then
            toString ((t - nowEpoch).tdiv 3600) ++ "h"
              ++ toString (((t - nowEpoch).tdiv 60).tmod 60) ++ "m"
              ++ toString ((t - nowEpoch).tmod 60) ++ "s"
          else if ((t - nowEpoch).tdiv 60).tmod 60 > 0 then
            toString (((t - nowEpoch).tdiv 60).tmod 60) ++ "m"
              ++ toString ((t - nowEpoch).tmod 60) ++ "s"
          else toString ((t - nowEpoch).tmod 60) ++ "s")) := by
  have hfmt : format_reset_time s nowEpoch = countdown_string (t - nowEpoch) := by
    simp [format_reset_time, h]
  refine ⟨hfmt, ?_, ?_, ?_⟩
  · intro hle
    rw [hfmt]
    simp [countdown_string, hle]
  · intro heq
    rw [hfmt, heq]
    decide
  · intro hpos
    rw [hfmt]
    simp only [countdown_string]
    rw [if_neg (by omega)]

/-- Concrete instantiation of `c9_countdown`: 2024-06-01T13:05:30Z has
epoch 1717247130; seen 3930 seconds (1h5m30s) earlier the countdown is
"1h5m30s", and seen after the instant it is "now". -/
theorem c9_countdown_witness :
    format_reset_time "2024-06-01T13:05:30Z" (1717247130 - 3930) = "1h5m30s"
    ∧ format_reset_time "2024-06-01T13:05:30Z" 1717250000 = "now" :=
  ⟨(c9_countdown "2024-06-01T13:05:30Z" 1717247130 (1717247130 - 3930)
      (by decide)).2.2.1 (by decide),
   (c9_countdown "2024-06-01T13:05:30Z" 1717247130 1717250000
      (by decide)).2.1 (by decide)⟩

/-- The wrapper field loop leaves the slot empty when no field is named
"result". -/
theorem decWrapperFields_no_result (fs : List (String × Json))
    (hno : ∀ k ∈ fs.map Prod.fst, k ≠ "result") :
    decWrapperFields fs none = Except.ok none := by
  induction fs with
  | nil => rfl
  | cons kv rest ih =>
    obtain ⟨k, v⟩ := kv
    have hk : k ≠ "result" := hno k (by simp)
    simp only [decWrapperFields, if_neg hk]
    exact ih (fun k2 hm => hno k2 (by simp [hm]))

/-- C2: for every valid direct-shape payload, decoding the body directly
yields the same snapshot as decoding the same body re-encoded as the
string value of a wrapper object's "result" field — `fetch_data` accepts
both forms with no content-type hint. -/
theorem c2_wrapper_transparent (d w : String) (fields : List (String × Json))
    (r : ApiResponse)
    (hd : parseJson d = some (Json.obj fields))
    (hshape : directShape fields)
    (hok : decApiResponse (Json.obj fields) = Except.ok r)
    (hw : parseJson w = some (Json.obj [("result", Json.str d)])) :
    fetch_decode d = Except.ok r ∧ fetch_decode w = Except.ok r := by
  have hnores : ∀ k ∈ fields.map Prod.fst, k ≠ "result" := by
    intro k hk
    rcases hshape.2 k hk with h | h | h <;> simp [h]
  have hwrapfail : decWrapper (Json.obj fields)
      = Except.error "missing field result" := by
    simp [decWrapper, decWrapperFields_no_result fields hnores]
  constructor
  · simp [fetch_decode, hd, hwrapfail, hok]
  · have hwrapok : decWrapper (Json.obj [("result", Json.str d)])
        = Except.ok d := rfl
    simp [fetch_decode, hw, hwrapok, inner_result, hd, hok]

/-- Concrete instantiation of `c2_wrapper_transparent`: the payload with
empty account and model lists decodes identically bare and wrapped. -/
theorem c2_wrapper_transparent_witness :
    fetch_decode "\x7b\"accounts\":[],\"models\":[]\x7d"
        = Except.ok { timestamp := none, accounts := [], models := [] }
    ∧ fetch_decode "\x7b\"result\":\"\x7b\\\"accounts\\\":[],\\\"models\\\":[]\x7d\"\x7d"
        = Except.ok { timestamp := none, accounts := [], models := [] } :=
  c2_wrapper_transparent "\x7b\"accounts\":[],\"models\":[]\x7d"
    "\x7b\"result\":\"\x7b\\\"accounts\\\":[],\\\"models\\\":[]\x7d\"\x7d"
    [("accounts", Json.arr []), ("models", Json.arr [])]
    { timestamp := none, accounts := [], models := [] }
    rfl (by constructor <;> decide) rfl rfl

/-- `inner_result` can only fail with an inner-parse error. -/
theorem inner_result_error_shape (inner : String) (e : DecodeError)
    (h : inner_result inner = Except.error e) :
    ∃ msg, e = DecodeError.innerParse msg := by
  unfold inner_result at h
  cases hp : parseJson inner with
  | none =>
    simp only [hp] at h
    exact ⟨"JSON syntax error", by injection h with h2; exact h2.symm⟩
  | some j =>
    simp only [hp] at h
    cases hd : decApiResponse j with
    | error msg =>
      simp only [hd] at h
      exact ⟨msg, by injection h with h2; exact h2.symm⟩
    | ok r2 =>
      simp only [hd] at h
      cases h

/-- C10: whenever the response body parses as a JSON object whose single
"result" field is a string, the decoder commits to the wrapper path: if
the nested string is not a valid snapshot document the cycle fails with
the inner-parse error, and the direct-parse fallback is never attempted —
even when the body itself also carries valid top-level accounts and
models fields. -/
theorem c10_wrapper_commitment (text inner : String) (j : Json)
    (r : ApiResponse) (e : DecodeError)
    (hp : parseJson text = some j)
    (hw : decWrapper j = Except.ok inner)
    (hfail : inner_result inner = Except.error e)
    (hdirect : decApiResponse j = Except.ok r) :
    fetch_decode text = Except.error e
    ∧ (∃ msg, e = DecodeError.innerParse msg)
    ∧ fetch_decode text ≠ Except.ok r := by
  have hmain : fetch_decode text = inner_result inner := by
    simp [fetch_decode, hp, hw]
  obtain ⟨msg, hmsg⟩ := inner_result_error_shape inner e hfail
  refine ⟨hmain.trans hfail, ⟨msg, hmsg⟩, ?_⟩
  rw [hmain, hfail]
  simp

/-- Concrete instantiation of `c10_wrapper_commitment`: a body holding an
unparseable "result" string next to valid accounts and models fields
fails with the inner-parse error instead of decoding directly. -/
theorem c10_wrapper_commitment_witness :
    fetch_decode "\x7b\"result\":\"nope\",\"accounts\":[],\"models\":[]\x7d"
      = Except.error (DecodeError.innerParse "JSON syntax error")
    ∧ fetch_decode "\x7b\"result\":\"nope\",\"accounts\":[],\"models\":[]\x7d"
      ≠ Except.ok { timestamp := none, accounts := [], models := [] } :=
  ⟨(c10_wrapper_commitment "\x7b\"result\":\"nope\",\"accounts\":[],\"models\":[]\x7d"
      "nope"
      (Json.obj [("result", Json.str "nope"), ("accounts", Json.arr []),
        ("models", Json.arr [])])
      { timestamp := none, accounts := [], models := [] }
      (DecodeError.innerParse "JSON syntax error") rfl rfl rfl rfl).1,
   (c10_wrapper_commitment "\x7b\"result\":\"nope\",\"accounts\":[],\"models\":[]\x7d"
      "nope"
      (Json.obj [("result", Json.str "nope"), ("accounts", Json.arr []),
        ("models", Json.arr [])])
      { timestamp := none, accounts := [], models := [] }
      (DecodeError.innerParse "JSON syntax error") rfl rfl rfl rfl).2.2⟩
